import Mathlib

/-!
Verification of the AntSeed `OpenClawProvider` request gateway
(`src/provider.ts`: `handleRequest`, `getCapacity`, `writeLog`,
`tryParseModel`, `extractLastUserMessage`, `buildSuccessResponse`,
`buildErrorResponse`).

The provider is shallowly embedded:

* The request carries its buyer header value (`headers["x-antseed-buyer-peer-id"]
  ?? null` becomes an `Option String`) and the outcome of `JSON.parse` on its
  body bytes (`BodyParse`).  `JSON.parse` is deterministic, so both parse sites
  (`handleRequest` step 1 and the audit logger's best-effort `tryParseModel`)
  are projections of this one outcome.
* The external collaborators reached through `this.rt.channel` are an
  environment `Env`: each call either resolves (`Except.ok`) or rejects
  (`Except.error msg`, the thrown error's message).  `recordInboundSession`
  additionally has its contractual failure channel (`onRecordError`), which
  resolves normally after reporting.
* The sequential body of `handleRequest` is the total function
  `handleRequest`; besides the response it returns the ordered list of
  observable events (body parse, each collaborator invocation, audit-log
  append attempts) and whether the request was admitted (counter incremented,
  and — by the `finally` block — decremented at the end of its lifecycle).
* Concurrent interleavings of `handleRequest` calls are the small-step
  relation `Step` on a system state (the shared `activeCount` plus one phase
  per request).  JavaScript's event loop runs the stretch from function entry
  to `this.activeCount++` without interleaving (there is no `await` on that
  path), so admission/rejection is one atomic step; the decrement in
  `finally` is another.
-/

/-- One `{role, content}` element of `body.messages`. -/
structure Msg where
  role : String
  content : String
deriving DecidableEq, Repr

/-- Outcome of `JSON.parse(new TextDecoder().decode(req.body))`:
either the parse throws (carrying the error's message) or it yields an object
with optional `model` and `messages` fields. -/
inductive BodyParse where
  | malformed (errMsg : String)
  | ok (model : Option String) (messages : Option (List Msg))
deriving DecidableEq, Repr

/-- A `SerializedHttpRequest` as seen by `handleRequest`: the correlation id,
the `x-antseed-buyer-peer-id` header (`none` when absent), and the parse
outcome of the body bytes. -/
structure Request where
  requestId : String
  buyerPeerId : Option String
  parsedBody : BodyParse
deriving DecidableEq, Repr

/-- The provider configuration fields that `handleRequest` consults. -/
structure ProviderCfg where
  allowedBuyers : List String
  maxConcurrency : Nat
  requestLogEnabled : Bool
deriving DecidableEq, Repr

/-- Result of `resolveAgentRoute`. -/
structure Route where
  agentId : String
  sessionKey : String
  mainSessionKey : String
deriving DecidableEq, Repr

/-- The finalized inbound context, as far as the gateway reads it back
(`ctx.SessionKey`); the empty string stands for a falsy `SessionKey`. -/
structure Ctx where
  sessionKey : String
deriving DecidableEq, Repr

/-- One payload delivered to the `deliver` callback: optional `markdown` and
`text` fields (absent is `none`; present-but-empty is `some ""`). -/
structure Fragment where
  markdown : Option String
  text : Option String
deriving DecidableEq, Repr

/-- Outcome of `await recordInboundSession(...)`: it resolves (possibly after
reporting a record failure through the `onRecordError` callback, its
contractual failure channel), or the awaited call itself rejects. -/
inductive RecordOutcome where
  | ok
  | recordError (e : String)
  | thrown (e : String)
deriving DecidableEq, Repr

/-- The behaviour of the external collaborators for one request: each call
either resolves or rejects with an error message, `appendFile` in the audit
logger succeeds or fails. -/
structure Env where
  resolveAgentRoute : Except String Route
  resolveStorePath : Except String String
  resolveEnvelopeFormatOptions : Except String Unit
  formatInboundEnvelope : Except String String
  finalizeInboundContext : Except String Ctx
  recordInboundSession : RecordOutcome
  dispatchReply : Except String (List Fragment)
  appendOk : Bool
deriving Repr

/-- The turn test `messages[i].role === "user" && messages[i].content`
(string truthiness: non-empty). -/
def isUserTurn (m : Msg) : Bool :=
  m.role == "user" && m.content != ""

/-- Source `extractLastUserMessage`: scan `messages` from the last index down,
return the first `content` whose turn has role `"user"` and truthy content,
else `null`. -/
def extractLastUserMessage (messages : List Msg) : Option String :=
  (messages.reverse.find? isUserTurn).map Msg.content

/-- The rejection test of the allowlist block:
`!buyerPeerId || !this.allowedBuyers.includes(buyerPeerId)`
(`null` and `""` are falsy). -/
def buyerRejected (allowedBuyers : List String) (buyer : Option String) : Bool :=
  match buyer with
  | none => true
  | some s => s == "" || !(allowedBuyers.contains s)

/-- One choice of the success body. -/
structure Choice where
  index : Nat
  role : String
  content : String
  finishReason : String
deriving DecidableEq, Repr

/-- The success body built by `buildSuccessResponse`. -/
structure SuccessBody where
  id : String
  object : String
  created : Nat
  choices : List Choice
deriving DecidableEq, Repr

/-- The `error` object built by `buildErrorResponse` (`etype` embeds the
JSON field named `type`). -/
structure ErrorInfo where
  message : String
  etype : String
  code : Nat
deriving DecidableEq, Repr

/-- A response body: success shape or error shape. -/
inductive RespBody where
  | success (b : SuccessBody)
  | error (e : ErrorInfo)
deriving DecidableEq, Repr

/-- A `SerializedHttpResponse` (the body kept structured rather than as
serialized bytes). -/
structure Response where
  requestId : String
  statusCode : Nat
  contentType : String
  body : RespBody
deriving DecidableEq, Repr

/-- Source `buildSuccessResponse(requestId, content)`; `now` is
`Math.floor(Date.now() / 1000)` at build time. -/
def buildSuccessResponse (requestId : String) (content : String) (now : Nat) :
    Response :=
  { requestId := requestId
    statusCode := 200
    contentType := "application/json"
    body := .success
      { id := "chatcmpl-" ++ requestId
        object := "chat.completion"
        created := now
        choices := [{ index := 0, role := "assistant", content := content,
                      finishReason := "stop" }] } }

/-- Source `buildErrorResponse(requestId, statusCode, message)`. -/
def buildErrorResponse (requestId : String) (statusCode : Nat)
    (message : String) : Response :=
  { requestId := requestId
    statusCode := statusCode
    contentType := "application/json"
    body := .error { message := message, etype := "server_error",
                     code := statusCode } }

/-- Observable events of one `handleRequest` run, in order: the step-1 body
parse, each collaborator invocation, and each audit-log append attempt
(carrying the logged status code, the best-effort `model` field, and whether
`appendFile` succeeded). -/
inductive Ev where
  | parseBody
  | resolveRouteCall
  | resolveStorePathCall
  | resolveEnvelopeOptionsCall
  | formatEnvelopeCall
  | finalizeCtxCall
  | recordSessionCall
  | dispatchCall
  | logAppend (statusCode : Nat) (model : Option String) (ok : Bool)
deriving DecidableEq, Repr

/-- Events that are invocations of a pipeline collaborator. -/
def isCollabEv : Ev → Bool
  | .resolveRouteCall => true
  | .resolveStorePathCall => true
  | .resolveEnvelopeOptionsCall => true
  | .formatEnvelopeCall => true
  | .finalizeCtxCall => true
  | .recordSessionCall => true
  | .dispatchCall => true
  | _ => false

/-- Events that are audit-log append attempts. -/
def isLogAppendEv : Ev → Bool
  | .logAppend _ _ _ => true
  | _ => false

/-- Number of audit-log append attempts in an event list. -/
def countLogAppends (evs : List Ev) : Nat :=
  evs.countP isLogAppendEv

/-- Source `tryParseModel`: best-effort re-parse of the body for the audit record;
a parse failure yields `null`, never an exception. -/
def tryParseModel (req : Request) : Option String :=
  match req.parsedBody with
  | .malformed _ => none
  | .ok model _ => model

/-- Source `writeLog`: when request logging is enabled, attempt exactly one
append of the audit record (a failed `appendFile` is caught and only
reported to the operator log); otherwise do nothing. -/
def writeLog (cfg : ProviderCfg) (req : Request) (appendOk : Bool)
    (res : Response) : List Ev :=
  if cfg.requestLogEnabled then
    [.logAppend res.statusCode (tryParseModel req) appendOk]
  else []

/-- The deliver callback `const text = payload.markdown || payload.text;
if (text) chunks.push(text)`:
the chunk a fragment contributes, if any. -/
def fragContribution (f : Fragment) : Option String :=
  let text :=
    match f.markdown with
    | some m => if m == "" then f.text else some m
    | none => f.text
  match text with
  | some t => if t == "" then none else some t
  | none => none

/-- The join `chunks.join("\n")` over the contributions of the delivered
fragments. -/
def joinChunks (frags : List Fragment) : String :=
  String.intercalate "\n" (frags.filterMap fragContribution)

/-- Steps 2–4 of `handleRequest`: invoke the collaborators in source order,
stopping at the first rejection; return the events so far together with
either the thrown message or the joined response text. -/
def runPipeline (env : Env) : List Ev × Except String String :=
  match env.resolveAgentRoute with
  | .error e => ([.resolveRouteCall], .error e)
  | .ok _route =>
    match env.resolveStorePath with
    | .error e => ([.resolveRouteCall, .resolveStorePathCall], .error e)
    | .ok _storePath =>
      match env.resolveEnvelopeFormatOptions with
      | .error e =>
          ([.resolveRouteCall, .resolveStorePathCall,
            .resolveEnvelopeOptionsCall], .error e)
      | .ok _envelopeOptions =>
        match env.formatInboundEnvelope with
        | .error e =>
            ([.resolveRouteCall, .resolveStorePathCall,
              .resolveEnvelopeOptionsCall, .formatEnvelopeCall], .error e)
        | .ok _formattedBody =>
          match env.finalizeInboundContext with
          | .error e =>
              ([.resolveRouteCall, .resolveStorePathCall,
                .resolveEnvelopeOptionsCall, .formatEnvelopeCall,
                .finalizeCtxCall], .error e)
          | .ok _ctx =>
            match env.recordInboundSession with
            | .thrown e =>
                ([.resolveRouteCall, .resolveStorePathCall,
                  .resolveEnvelopeOptionsCall, .formatEnvelopeCall,
                  .finalizeCtxCall, .recordSessionCall], .error e)
            | _ =>
              match env.dispatchReply with
              | .error e =>
                  ([.resolveRouteCall, .resolveStorePathCall,
                    .resolveEnvelopeOptionsCall, .formatEnvelopeCall,
                    .finalizeCtxCall, .recordSessionCall, .dispatchCall],
                   .error e)
              | .ok frags =>
                  ([.resolveRouteCall, .resolveStorePathCall,
                    .resolveEnvelopeOptionsCall, .formatEnvelopeCall,
                    .finalizeCtxCall, .recordSessionCall, .dispatchCall],
                   .ok (joinChunks frags))

/-- Result of one sequential `handleRequest` run: the response, the ordered
events, and whether the request was admitted (the in-flight counter was
incremented on entry and, by `finally`, decremented at the end). -/
structure HandleResult where
  response : Response
  events : List Ev
  admitted : Bool
deriving DecidableEq, Repr

/-- Source `handleRequest`, sequential semantics for one request against the
collaborator behaviour `env`, entered while `active` requests are in
flight. -/
def handleRequest (cfg : ProviderCfg) (active : Nat) (req : Request)
    (env : Env) (now : Nat) : HandleResult :=
  if 0 < cfg.allowedBuyers.length ∧
      buyerRejected cfg.allowedBuyers req.buyerPeerId = true then
    let res := buildErrorResponse req.requestId 403 "Buyer not allowed"
    { response := res, events := writeLog cfg req env.appendOk res,
      admitted := false }
  else if cfg.maxConcurrency ≤ active then
    let res := buildErrorResponse req.requestId 429 "Max concurrency reached"
    { response := res, events := writeLog cfg req env.appendOk res,
      admitted := false }
  else
    match req.parsedBody with
    | .malformed e =>
        let res := buildErrorResponse req.requestId 500 e
        { response := res,
          events := .parseBody :: writeLog cfg req env.appendOk res,
          admitted := true }
    | .ok _model messages =>
        match extractLastUserMessage (messages.getD []) with
        | none =>
            let res := buildErrorResponse req.requestId 400
              "No user message found in request"
            { response := res,
              events := .parseBody :: writeLog cfg req env.appendOk res,
              admitted := true }
        | some _userMessage =>
            let pr := runPipeline env
            match pr.2 with
            | .error e =>
                let res := buildErrorResponse req.requestId 500 e
                { response := res,
                  events := .parseBody :: pr.1 ++
                    writeLog cfg req env.appendOk res,
                  admitted := true }
            | .ok responseText =>
                let res := buildSuccessResponse req.requestId responseText now
                { response := res,
                  events := .parseBody :: pr.1 ++
                    writeLog cfg req env.appendOk res,
                  admitted := true }

/-! ## Concurrent interleavings of `handleRequest`

`activeCount` is the only shared mutable state.  The synchronous stretch
from function entry through the allowlist check, the capacity check and
`this.activeCount++` contains no `await`, so it is one atomic step per
request; the decrement in `finally` is another.  Each request is a process
that is idle, admitted (counter incremented, body being handled), or
finished. -/

/-- Lifecycle phase of one `handleRequest` call. -/
inductive Phase where
  | idle
  | admitted
  | finished
deriving DecidableEq, Repr

/-- One in-flight or pending request: its buyer header and its phase. -/
structure Proc where
  buyer : Option String
  phase : Phase
deriving DecidableEq, Repr

/-- Mark a process finished. -/
def finishProc (p : Proc) : Proc := { p with phase := .finished }

/-- Mark a process admitted. -/
def enterProc (p : Proc) : Proc := { p with phase := .admitted }

/-- Replace the `i`-th element by `f` of it (identity out of range). -/
def modifyAt (f : Proc → Proc) : Nat → List Proc → List Proc
  | _, [] => []
  | 0, p :: ps => f p :: ps
  | n + 1, p :: ps => p :: modifyAt f n ps

/-- Global state: the shared `activeCount` and the request processes. -/
structure Sys where
  active : Int
  procs : List Proc
deriving DecidableEq, Repr

/-- Number of processes currently in the admitted phase. -/
def countAdmitted : List Proc → Nat
  | [] => 0
  | p :: ps => (if p.phase = Phase.admitted then 1 else 0) + countAdmitted ps

/-- All processes have finished. -/
def allFinished (ps : List Proc) : Prop :=
  ∀ p ∈ ps, p.phase = Phase.finished

/-- Atomic steps of the interleaved execution of `handleRequest` calls,
mirroring the source's branch structure: a 403 allowlist rejection and a
429 capacity rejection leave the counter untouched; admission checks
`activeCount >= maxConcurrency` and increments in the same synchronous
stretch; the `finally` block decrements exactly once when an admitted
request's handling ends (success, 400, or exception mapped to 500). -/
inductive Step (cfg : ProviderCfg) : Sys → Sys → Prop where
  | reject403 (s : Sys) (i : Nat) (p : Proc)
      (hp : s.procs.get? i = some p) (hidle : p.phase = Phase.idle)
      (hauth : 0 < cfg.allowedBuyers.length ∧
        buyerRejected cfg.allowedBuyers p.buyer = true) :
      Step cfg s { active := s.active, procs := modifyAt finishProc i s.procs }
  | reject429 (s : Sys) (i : Nat) (p : Proc)
      (hp : s.procs.get? i = some p) (hidle : p.phase = Phase.idle)
      (hauth : ¬(0 < cfg.allowedBuyers.length ∧
        buyerRejected cfg.allowedBuyers p.buyer = true))
      (hcap : (cfg.maxConcurrency : Int) ≤ s.active) :
      Step cfg s { active := s.active, procs := modifyAt finishProc i s.procs }
  | enter (s : Sys) (i : Nat) (p : Proc)
      (hp : s.procs.get? i = some p) (hidle : p.phase = Phase.idle)
      (hauth : ¬(0 < cfg.allowedBuyers.length ∧
        buyerRejected cfg.allowedBuyers p.buyer = true))
      (hcap : s.active < (cfg.maxConcurrency : Int)) :
      Step cfg s { active := s.active + 1, procs := modifyAt enterProc i s.procs }
  | complete (s : Sys) (i : Nat) (p : Proc)
      (hp : s.procs.get? i = some p) (hadm : p.phase = Phase.admitted) :
      Step cfg s { active := s.active - 1, procs := modifyAt finishProc i s.procs }

/-- States reachable by any interleaving of request steps. -/
def Reachable (cfg : ProviderCfg) : Sys → Sys → Prop :=
  Relation.ReflTransGen (Step cfg)

/-! ## Helper lemmas -/

theorem countAdmitted_modifyAt_finish (i : Nat) (ps : List Proc) (p : Proc)
    (hp : ps.get? i = some p) (h : p.phase ≠ Phase.admitted) :
    countAdmitted (modifyAt finishProc i ps) = countAdmitted ps := by
  induction ps generalizing i with
  | nil => simp at hp
  | cons q qs ih =>
    cases i with
    | zero =>
      simp [List.get?] at hp
      subst hp
      simp [modifyAt, countAdmitted, finishProc, h]
    | succ n =>
      simp [modifyAt, countAdmitted, ih n hp]

theorem countAdmitted_modifyAt_enter (i : Nat) (ps : List Proc) (p : Proc)
    (hp : ps.get? i = some p) (h : p.phase = Phase.idle) :
    countAdmitted (modifyAt enterProc i ps) = countAdmitted ps + 1 := by
  induction ps generalizing i with
  | nil => simp at hp
  | cons q qs ih =>
    cases i with
    | zero =>
      simp [List.get?] at hp
      subst hp
      simp [modifyAt, countAdmitted, enterProc, h]
      omega
    | succ n =>
      simp [modifyAt, countAdmitted, ih n hp]
      omega

theorem countAdmitted_modifyAt_complete (i : Nat) (ps : List Proc) (p : Proc)
    (hp : ps.get? i = some p) (h : p.phase = Phase.admitted) :
    countAdmitted ps = countAdmitted (modifyAt finishProc i ps) + 1 := by
  induction ps generalizing i with
  | nil => simp at hp
  | cons q qs ih =>
    cases i with
    | zero =>
      simp [List.get?] at hp
      subst hp
      simp [modifyAt, countAdmitted, finishProc, h]
      omega
    | succ n =>
      simp [modifyAt, countAdmitted, ih n hp]
      omega

theorem countAdmitted_eq_zero (ps : List Proc)
    (h : ∀ p ∈ ps, p.phase ≠ Phase.admitted) : countAdmitted ps = 0 := by
  induction ps with
  | nil => rfl
  | cons q qs ih =>
    have hq := h q (by simp)
    simp [countAdmitted, hq]
    exact ih (fun p hm => h p (by simp [hm]))

theorem step_preserves_acc (cfg : ProviderCfg) (base : Int) (s s' : Sys)
    (hstep : Step cfg s s')
    (hacc : s.active = base + (countAdmitted s.procs : Int))
    (hub : s.active ≤ (cfg.maxConcurrency : Int)) :
    s'.active = base + (countAdmitted s'.procs : Int) ∧
    s'.active ≤ (cfg.maxConcurrency : Int) := by
  cases hstep with
  | reject403 i p hp hidle hauth =>
    have hne : p.phase ≠ Phase.admitted := by rw [hidle]; intro hc; cases hc
    have hcnt := countAdmitted_modifyAt_finish i s.procs p hp hne
    exact ⟨by simpa [hcnt] using hacc, hub⟩
  | reject429 i p hp hidle hauth hcap =>
    have hne : p.phase ≠ Phase.admitted := by rw [hidle]; intro hc; cases hc
    have hcnt := countAdmitted_modifyAt_finish i s.procs p hp hne
    exact ⟨by simpa [hcnt] using hacc, hub⟩
  | enter i p hp hidle hauth hcap =>
    have hcnt := countAdmitted_modifyAt_enter i s.procs p hp hidle
    constructor
    · simp only [hcnt]
      push_cast
      omega
    · simp only
      omega
  | complete i p hp hadm =>
    have hcnt := countAdmitted_modifyAt_complete i s.procs p hp hadm
    constructor
    · simp only [hcnt] at hacc
      push_cast at hacc ⊢
      omega
    · simp only
      omega

theorem reachable_acc (cfg : ProviderCfg) (base : Int) (s0 s : Sys)
    (h0 : s0.active = base + (countAdmitted s0.procs : Int))
    (hub0 : s0.active ≤ (cfg.maxConcurrency : Int))
    (hr : Reachable cfg s0 s) :
    s.active = base + (countAdmitted s.procs : Int) ∧
    s.active ≤ (cfg.maxConcurrency : Int) := by
  induction hr with
  | refl => exact ⟨h0, hub0⟩
  | tail hpre hstep ih => exact step_preserves_acc cfg base _ _ hstep ih.1 ih.2

theorem find?_eq_some_split {α : Type} (p : α → Bool) (l : List α) (a : α) :
    l.find? p = some a ↔
      ∃ l1 l2, l = l1 ++ a :: l2 ∧ p a = true ∧ ∀ x ∈ l1, p x = false := by
  induction l generalizing a with
  | nil => simp
  | cons b bs ih =>
    by_cases hb : p b = true
    · rw [List.find?_cons_of_pos bs hb]
      constructor
      · intro h
        have hba : b = a := Option.some.inj h
        subst hba
        exact ⟨[], bs, rfl, hb, fun x hx => absurd hx (List.not_mem_nil x)⟩
      · rintro ⟨l1, l2, heq, hpa, hall⟩
        cases l1 with
        | nil =>
          simp only [List.nil_append] at heq
          injection heq with h1 h2
          rw [h1]
        | cons x xs =>
          simp only [List.cons_append] at heq
          injection heq with h1 h2
          have hfx := hall x (List.mem_cons_self x xs)
          rw [← h1, hb] at hfx
          cases hfx
    · rw [List.find?_cons_of_neg bs (by simpa using hb), ih]
      constructor
      · rintro ⟨l1, l2, heq, hpa, hall⟩
        refine ⟨b :: l1, l2, by rw [heq]; rfl, hpa, ?_⟩
        intro x hx
        rcases List.mem_cons.mp hx with h | h
        · rw [h]
          exact Bool.eq_false_iff.mpr hb
        · exact hall x h
      · rintro ⟨l1, l2, heq, hpa, hall⟩
        cases l1 with
        | nil =>
          simp only [List.nil_append] at heq
          injection heq with h1 h2
          rw [h1] at hb
          exact absurd hpa hb
        | cons x xs =>
          simp only [List.cons_append] at heq
          injection heq with h1 h2
          exact ⟨xs, l2, h2, hpa,
            fun y hy => hall y (List.mem_cons_of_mem x hy)⟩

theorem isUserTurn_iff (m : Msg) :
    isUserTurn m = true ↔ m.role = "user" ∧ m.content ≠ "" := by
  simp [isUserTurn]

theorem extractLastUserMessage_eq_some (messages : List Msg) (c : String) :
    extractLastUserMessage messages = some c ↔
      ∃ pre m post, messages = pre ++ m :: post ∧ m.role = "user" ∧
        m.content ≠ "" ∧ m.content = c ∧
        ∀ m' ∈ post, ¬(m'.role = "user" ∧ m'.content ≠ "") := by
  unfold extractLastUserMessage
  constructor
  · intro h
    rcases Option.map_eq_some'.mp h with ⟨m, hfind, hc⟩
    rcases (find?_eq_some_split _ _ _).mp hfind with ⟨l1, l2, heq, hpm, hall⟩
    have hmsg : messages = l2.reverse ++ m :: l1.reverse := by
      have h2 := congrArg List.reverse heq
      simpa [List.reverse_append] using h2
    have hm := (isUserTurn_iff m).mp hpm
    refine ⟨l2.reverse, m, l1.reverse, hmsg, hm.1, hm.2, hc, ?_⟩
    intro m' hm'
    have : isUserTurn m' = false := hall m' (by simpa using hm')
    intro hcontra
    rw [(isUserTurn_iff m').mpr hcontra] at this
    cases this
  · rintro ⟨pre, m, post, heq, hrole, hcont, hc, hall⟩
    have hfind : messages.reverse.find? isUserTurn = some m := by
      refine (find?_eq_some_split _ _ _).mpr
        ⟨post.reverse, pre.reverse, ?_, (isUserTurn_iff m).mpr ⟨hrole, hcont⟩, ?_⟩
      · rw [heq]
        simp [List.reverse_append]
      · intro x hx
        have hxp : x ∈ post := by simpa using hx
        have := hall x hxp
        cases hu : isUserTurn x with
        | false => rfl
        | true => exact absurd ((isUserTurn_iff x).mp hu) this
    rw [hfind]
    simpa using hc

theorem extractLastUserMessage_eq_none (messages : List Msg) :
    extractLastUserMessage messages = none ↔
      ∀ m ∈ messages, ¬(m.role = "user" ∧ m.content ≠ "") := by
  unfold extractLastUserMessage
  rw [Option.map_eq_none', List.find?_eq_none]
  constructor
  · intro h m hm hcontra
    have := h m (by simpa using hm)
    exact this ((isUserTurn_iff m).mpr hcontra)
  · intro h m hm hu
    exact h m (by simpa using hm) ((isUserTurn_iff m).mp hu)

theorem countLogAppends_writeLog (cfg : ProviderCfg) (req : Request)
    (ap : Bool) (res : Response) :
    countLogAppends (writeLog cfg req ap res) =
      if cfg.requestLogEnabled then 1 else 0 := by
  unfold writeLog
  split <;> simp [countLogAppends, isLogAppendEv]

theorem countLogAppends_runPipeline (env : Env) :
    countLogAppends (runPipeline env).1 = 0 := by
  rcases env with ⟨r, sp, eo, fe, fc, rec, disp, ap⟩
  cases r <;> cases sp <;> cases eo <;> cases fe <;> cases fc <;>
    cases rec <;> cases disp <;> rfl

theorem countLogAppends_cons_parse (l : List Ev) :
    countLogAppends (Ev.parseBody :: l) = countLogAppends l := by
  simp [countLogAppends, List.countP_cons, isLogAppendEv]

theorem countLogAppends_append (l1 l2 : List Ev) :
    countLogAppends (l1 ++ l2) = countLogAppends l1 + countLogAppends l2 := by
  simp [countLogAppends, List.countP_append]

theorem runPipeline_appendOk (env : Env) (b : Bool) :
    runPipeline { env with appendOk := b } = runPipeline env := by
  rcases env with ⟨r, sp, eo, fe, fc, rec, disp, ap⟩
  rfl

theorem runPipeline_record (env : Env) (e : String) :
    runPipeline { env with recordInboundSession := .recordError e } =
      runPipeline { env with recordInboundSession := .ok } := by
  rcases env with ⟨r, sp, eo, fe, fc, rec, disp, ap⟩
  cases r <;> cases sp <;> cases eo <;> cases fe <;> cases fc <;>
    cases disp <;> rfl

/-! ## Claims -/

/-- C1: over every interleaving of `handleRequest` calls, the in-flight
counter (`getCapacity().current`) stays in `[0, maxConcurrency]`; it equals
the base value plus the number of currently admitted requests (so it is
incremented exactly once per admitted request — never for a 403 or 429
rejection, which leave it untouched — and decremented exactly once when an
admitted request's handling ends, whatever the outcome); once every request
has finished it is back at the base value. -/
theorem c1_counter_invariant (cfg : ProviderCfg) (base : Int) (s0 s : Sys)
    (hbase : 0 ≤ base) (hbase_ub : base ≤ (cfg.maxConcurrency : Int))
    (h0act : s0.active = base)
    (h0idle : ∀ p ∈ s0.procs, p.phase = Phase.idle)
    (hr : Reachable cfg s0 s) :
    (0 ≤ s.active ∧ s.active ≤ (cfg.maxConcurrency : Int)) ∧
    s.active = base + (countAdmitted s.procs : Int) ∧
    (allFinished s.procs → s.active = base) := by
  have hc0 : countAdmitted s0.procs = 0 :=
    countAdmitted_eq_zero s0.procs
      (fun p hm => by rw [h0idle p hm]; intro hc; cases hc)
  have hmain := reachable_acc cfg base s0 s
    (by rw [h0act, hc0]; simp) (by rw [h0act]; exact hbase_ub) hr
  refine ⟨⟨?_, hmain.2⟩, hmain.1, ?_⟩
  · have hnn : (0 : Int) ≤ (countAdmitted s.procs : Int) := Int.natCast_nonneg _
    have hm1 := hmain.1
    omega
  · intro hfin
    have : countAdmitted s.procs = 0 :=
      countAdmitted_eq_zero s.procs
        (fun p hm => by rw [hfin p hm]; intro hc; cases hc)
    rw [hmain.1, this]
    simp

/-- C3: a request that passes the allowlist check while the in-flight count
is at or above `maxConcurrency` gets exactly the 429 "Max concurrency
reached" error response; the request body is not parsed, no pipeline
collaborator is invoked, and the in-flight counter is not incremented
(only the best-effort audit append can run).  The audit logger's `model`
field extraction (`tryParseModel`, which cannot throw) is modelled as a
projection of the request's parse outcome and is not a processing step. -/
theorem c3_capacity_rejection (cfg : ProviderCfg) (active : Nat)
    (req : Request) (env : Env) (now : Nat)
    (hauth : ¬(0 < cfg.allowedBuyers.length ∧
      buyerRejected cfg.allowedBuyers req.buyerPeerId = true))
    (hcap : cfg.maxConcurrency ≤ active) :
    (handleRequest cfg active req env now).response =
        buildErrorResponse req.requestId 429 "Max concurrency reached" ∧
    (handleRequest cfg active req env now).admitted = false ∧
    ∀ e ∈ (handleRequest cfg active req env now).events,
      isCollabEv e = false ∧ e ≠ Ev.parseBody := by
  unfold handleRequest
  rw [if_neg hauth, if_pos hcap]
  refine ⟨rfl, rfl, ?_⟩
  intro e he
  simp only [writeLog] at he
  split at he
  · simp at he
    subst he
    exact ⟨rfl, by intro hc; cases hc⟩
  · simp at he

/-- Witness for C3: Scenario C — `maxConcurrency = 1`, a second request
arriving while one is in flight is rejected with 429 and not admitted. -/
theorem c3_capacity_rejection_witness :
    (handleRequest ⟨[], 1, true⟩ 1
        ⟨"r2", none, .ok none (some [⟨"user", "hi"⟩])⟩
        ⟨.ok ⟨"main", "k", "k"⟩, .ok "/tmp/store", .ok (), .ok "hi",
         .ok ⟨"k"⟩, .ok, .ok [], true⟩ 7).response =
      buildErrorResponse "r2" 429 "Max concurrency reached" ∧
    (handleRequest ⟨[], 1, true⟩ 1
        ⟨"r2", none, .ok none (some [⟨"user", "hi"⟩])⟩
        ⟨.ok ⟨"main", "k", "k"⟩, .ok "/tmp/store", .ok (), .ok "hi",
         .ok ⟨"k"⟩, .ok, .ok [], true⟩ 7).admitted = false := by
  have h := c3_capacity_rejection ⟨[], 1, true⟩ 1
    ⟨"r2", none, .ok none (some [⟨"user", "hi"⟩])⟩
    ⟨.ok ⟨"main", "k", "k"⟩, .ok "/tmp/store", .ok (), .ok "hi",
     .ok ⟨"k"⟩, .ok, .ok [], true⟩ 7 (by decide) (by decide)
  exact ⟨h.1, h.2.1⟩

/-- C4: `extractLastUserMessage` returns the content of the last element
whose role is `"user"` and whose content is non-empty — no element after it
is such a turn, however many user or assistant turns precede it — and
returns `null` exactly when no such element exists; e.g.
`[user:"a", assistant:"b", user:"c"]` yields `"c"`. -/
theorem c4_extract_last_user_message (messages : List Msg) (c : String) :
    (extractLastUserMessage messages = some c ↔
      ∃ pre m post, messages = pre ++ m :: post ∧ m.role = "user" ∧
        m.content ≠ "" ∧ m.content = c ∧
        ∀ m' ∈ post, ¬(m'.role = "user" ∧ m'.content ≠ "")) ∧
    (extractLastUserMessage messages = none ↔
      ∀ m ∈ messages, ¬(m.role = "user" ∧ m.content ≠ "")) ∧
    extractLastUserMessage
      [⟨"user", "a"⟩, ⟨"assistant", "b"⟩, ⟨"user", "c"⟩] = some "c" :=
  ⟨extractLastUserMessage_eq_some messages c,
   extractLastUserMessage_eq_none messages, by decide⟩

/-- C5: an admitted request whose well-formed body has no turn with role
`"user"` and non-empty content — empty `messages`, all-assistant
`messages`, or an absent `messages` field (defaulted to `[]`) — gets
exactly the 400 "No user message found in request" error response, and no
routing, envelope, session-recording, or pipeline-dispatch collaborator is
ever invoked on that path. -/
theorem c5_no_user_message (cfg : ProviderCfg) (active : Nat) (req : Request)
    (env : Env) (now : Nat) (model : Option String)
    (messages : Option (List Msg))
    (hauth : ¬(0 < cfg.allowedBuyers.length ∧
      buyerRejected cfg.allowedBuyers req.buyerPeerId = true))
    (hcap : ¬ cfg.maxConcurrency ≤ active)
    (hbody : req.parsedBody = BodyParse.ok model messages)
    (hnouser : ∀ m ∈ messages.getD [], ¬(m.role = "user" ∧ m.content ≠ "")) :
    (handleRequest cfg active req env now).response =
        buildErrorResponse req.requestId 400
          "No user message found in request" ∧
    ∀ e ∈ (handleRequest cfg active req env now).events,
      isCollabEv e = false := by
  have hex : extractLastUserMessage (messages.getD []) = none :=
    (extractLastUserMessage_eq_none _).mpr hnouser
  unfold handleRequest
  rw [if_neg hauth, if_neg hcap]
  simp only [hbody, hex]
  refine ⟨by trivial, ?_⟩
  intro e he
  simp only [writeLog] at he
  rcases List.mem_cons.mp he with h | h
  · rw [h]
    rfl
  · split at h
    · simp at h
      subst h
      rfl
    · simp at h

/-- Witness for C5: an all-assistant `messages` array yields the 400
response. -/
theorem c5_no_user_message_witness :
    (handleRequest ⟨[], 4, true⟩ 0
        ⟨"r3", none, .ok (some "openclaw/jeff")
          (some [⟨"assistant", "b"⟩])⟩
        ⟨.ok ⟨"main", "k", "k"⟩, .ok "/tmp/store", .ok (), .ok "hi",
         .ok ⟨"k"⟩, .ok, .ok [], true⟩ 7).response =
      buildErrorResponse "r3" 400 "No user message found in request" :=
  (c5_no_user_message ⟨[], 4, true⟩ 0
    ⟨"r3", none, .ok (some "openclaw/jeff") (some [⟨"assistant", "b"⟩])⟩
    ⟨.ok ⟨"main", "k", "k"⟩, .ok "/tmp/store", .ok (), .ok "hi",
     .ok ⟨"k"⟩, .ok, .ok [], true⟩ 7 (some "openclaw/jeff")
    (some [⟨"assistant", "b"⟩]) (by decide) (by decide) rfl
    (by decide)).1

/-- C2: with an empty allowlist every caller is authorized (no request, even
one with an absent `x-antseed-buyer-peer-id` header, gets the 403 rejection);
a request escapes the 403 rejection only when the allowlist is empty or the
header is present with a value that is an exact, case-sensitive member; when
the allowlist is non-empty and no such member value is presented, the result
is exactly the 403 "Buyer not allowed" error response, the request is not
admitted (the in-flight counter is never incremented — the check precedes
the concurrency check, whatever `active` is), and nothing else runs: no body
parse and no collaborator call. -/
theorem c2_allowlist_filter (cfg : ProviderCfg) (active : Nat) (req : Request)
    (env : Env) (now : Nat) :
    (cfg.allowedBuyers = [] →
      (handleRequest cfg active req env now).response.statusCode ≠ 403) ∧
    ((handleRequest cfg active req env now).response.statusCode ≠ 403 →
      cfg.allowedBuyers = [] ∨
        ∃ s, req.buyerPeerId = some s ∧ s ∈ cfg.allowedBuyers) ∧
    (cfg.allowedBuyers ≠ [] →
      (¬ ∃ s, req.buyerPeerId = some s ∧ s ∈ cfg.allowedBuyers) →
      (handleRequest cfg active req env now).response =
          buildErrorResponse req.requestId 403 "Buyer not allowed" ∧
        (handleRequest cfg active req env now).admitted = false ∧
        ∀ e ∈ (handleRequest cfg active req env now).events,
          isCollabEv e = false ∧ e ≠ Ev.parseBody) := by
  refine ⟨?_, ?_, ?_⟩
  · intro hemp
    have hA : ¬(0 < cfg.allowedBuyers.length ∧
        buyerRejected cfg.allowedBuyers req.buyerPeerId = true) := by
      simp [hemp]
    unfold handleRequest
    rw [if_neg hA]
    split
    · simp [buildErrorResponse]
    · split
      · simp [buildErrorResponse]
      · split
        · simp [buildErrorResponse]
        · cases hpr : (runPipeline env).2 <;>
            simp [hpr, buildErrorResponse, buildSuccessResponse]
  · intro hne
    by_cases hA : 0 < cfg.allowedBuyers.length ∧
        buyerRejected cfg.allowedBuyers req.buyerPeerId = true
    · exfalso
      apply hne
      unfold handleRequest
      rw [if_pos hA]
      simp [buildErrorResponse]
    · rcases Decidable.not_and_iff_or_not.mp hA with h | h
      · left
        have := Nat.eq_zero_of_not_pos h
        exact List.length_eq_zero.mp this
      · right
        match hb : req.buyerPeerId with
        | none => rw [hb] at h; simp [buyerRejected] at h
        | some s =>
          rw [hb] at h
          simp [buyerRejected] at h
          exact ⟨s, rfl, h.2⟩
  · intro hne hnomem
    have hA : 0 < cfg.allowedBuyers.length ∧
        buyerRejected cfg.allowedBuyers req.buyerPeerId = true := by
      constructor
      · cases h : cfg.allowedBuyers with
        | nil => exact absurd h hne
        | cons a l => simp [h]
      · match hb : req.buyerPeerId with
        | none => simp [buyerRejected]
        | some s =>
          simp [buyerRejected]
          by_contra hc
          push_neg at hc
          exact hnomem ⟨s, hb, hc.2⟩
    unfold handleRequest
    rw [if_pos hA]
    refine ⟨rfl, rfl, ?_⟩
    intro e he
    simp only [writeLog] at he
    split at he
    · simp at he
      subst he
      exact ⟨rfl, by intro hc; cases hc⟩
    · simp at he

/-- Witness for C2: Scenario D — allowlist `["peer-abc"]`, header identity
`"peer-xyz"` gives the 403 "Buyer not allowed" response without admission. -/
theorem c2_allowlist_filter_witness :
    (handleRequest ⟨["peer-abc"], 4, false⟩ 0
        ⟨"r1", some "peer-xyz", .ok none (some [⟨"user", "hi"⟩])⟩
        ⟨.ok ⟨"main", "k", "k"⟩, .ok "/tmp/store", .ok (), .ok "hi",
         .ok ⟨"k"⟩, .ok, .ok [⟨none, some "Hello!"⟩], true⟩ 0).response =
      buildErrorResponse "r1" 403 "Buyer not allowed" ∧
    (handleRequest ⟨["peer-abc"], 4, false⟩ 0
        ⟨"r1", some "peer-xyz", .ok none (some [⟨"user", "hi"⟩])⟩
        ⟨.ok ⟨"main", "k", "k"⟩, .ok "/tmp/store", .ok (), .ok "hi",
         .ok ⟨"k"⟩, .ok, .ok [⟨none, some "Hello!"⟩], true⟩ 0).admitted =
      false := by
  have h := (c2_allowlist_filter ⟨["peer-abc"], 4, false⟩ 0
      ⟨"r1", some "peer-xyz", .ok none (some [⟨"user", "hi"⟩])⟩
      ⟨.ok ⟨"main", "k", "k"⟩, .ok "/tmp/store", .ok (), .ok "hi",
       .ok ⟨"k"⟩, .ok, .ok [⟨none, some "Hello!"⟩], true⟩ 0).2.2
    (by decide) (by decide)
  exact ⟨h.1, h.2.1⟩

/-- Witness for C1: two concurrent requests against `maxConcurrency = 1` and
an empty allowlist — the first is admitted, the second is rejected with 429
while the first is in flight, the first completes; the counter ends back
at 0. -/
theorem c1_counter_invariant_witness :
    ((0 : Int) ≤ (0 : Int) ∧ (0 : Int) ≤ ((1 : Nat) : Int)) ∧
    (0 : Int) = 0 + (countAdmitted
      [⟨none, Phase.finished⟩, ⟨none, Phase.finished⟩] : Int) ∧
    (allFinished [⟨none, Phase.finished⟩, ⟨none, Phase.finished⟩] →
      (0 : Int) = 0) := by
  have hr : Reachable ⟨[], 1, false⟩
      ⟨0, [⟨none, Phase.idle⟩, ⟨none, Phase.idle⟩]⟩
      ⟨0, [⟨none, Phase.finished⟩, ⟨none, Phase.finished⟩]⟩ := by
    refine Relation.ReflTransGen.head
      (Step.enter _ 0 ⟨none, Phase.idle⟩ rfl rfl (by decide) (by decide)) ?_
    refine Relation.ReflTransGen.head
      (Step.reject429 _ 1 ⟨none, Phase.idle⟩ rfl rfl (by decide) (by decide)) ?_
    refine Relation.ReflTransGen.head
      (Step.complete _ 0 ⟨none, Phase.admitted⟩ rfl rfl) ?_
    exact Relation.ReflTransGen.refl
  exact c1_counter_invariant ⟨[], 1, false⟩ 0
    ⟨0, [⟨none, Phase.idle⟩, ⟨none, Phase.idle⟩]⟩
    ⟨0, [⟨none, Phase.finished⟩, ⟨none, Phase.finished⟩]⟩
    (by decide) (by decide) rfl (by decide) hr

/-- C6: `handleRequest` is total (every path yields a well-formed
`application/json` response — no exception escapes); every non-200 response
body has exactly the shape `{error: {message, type: "server_error",
code: <status code>}}`; for an admitted request, a malformed body parse is
mapped to a 500 response carrying the thrown message verbatim, and so is a
rejection of any collaborator call — routing resolution, store-path
resolution, envelope-option resolution, envelope formatting, context
finalization, a throwing session-record call, or pipeline dispatch — the
first rejection's message being surfaced. -/
theorem c6_exceptions_mapped_to_500 (cfg : ProviderCfg) (active : Nat)
    (req : Request) (env : Env) (now : Nat) (e : String) :
    ((handleRequest cfg active req env now).response.contentType =
        "application/json" ∧
      ((handleRequest cfg active req env now).response.statusCode ≠ 200 →
        ∃ m, (handleRequest cfg active req env now).response.body =
          RespBody.error ⟨m, "server_error",
            (handleRequest cfg active req env now).response.statusCode⟩)) ∧
    (¬(0 < cfg.allowedBuyers.length ∧
        buyerRejected cfg.allowedBuyers req.buyerPeerId = true) →
      ¬ cfg.maxConcurrency ≤ active →
      req.parsedBody = BodyParse.malformed e →
      (handleRequest cfg active req env now).response =
        buildErrorResponse req.requestId 500 e) ∧
    (∀ model messages u,
      ¬(0 < cfg.allowedBuyers.length ∧
        buyerRejected cfg.allowedBuyers req.buyerPeerId = true) →
      ¬ cfg.maxConcurrency ≤ active →
      req.parsedBody = BodyParse.ok model messages →
      extractLastUserMessage (messages.getD []) = some u →
      (runPipeline env).2 = Except.error e →
      (handleRequest cfg active req env now).response =
        buildErrorResponse req.requestId 500 e) ∧
    ((env.resolveAgentRoute = .error e → (runPipeline env).2 = .error e) ∧
     (∀ r, env.resolveAgentRoute = .ok r →
       env.resolveStorePath = .error e → (runPipeline env).2 = .error e) ∧
     (∀ r sp, env.resolveAgentRoute = .ok r → env.resolveStorePath = .ok sp →
       env.resolveEnvelopeFormatOptions = .error e →
       (runPipeline env).2 = .error e) ∧
     (∀ r sp, env.resolveAgentRoute = .ok r → env.resolveStorePath = .ok sp →
       env.resolveEnvelopeFormatOptions = .ok () →
       env.formatInboundEnvelope = .error e →
       (runPipeline env).2 = .error e) ∧
     (∀ r sp fb, env.resolveAgentRoute = .ok r →
       env.resolveStorePath = .ok sp →
       env.resolveEnvelopeFormatOptions = .ok () →
       env.formatInboundEnvelope = .ok fb →
       env.finalizeInboundContext = .error e →
       (runPipeline env).2 = .error e) ∧
     (∀ r sp fb ctx, env.resolveAgentRoute = .ok r →
       env.resolveStorePath = .ok sp →
       env.resolveEnvelopeFormatOptions = .ok () →
       env.formatInboundEnvelope = .ok fb →
       env.finalizeInboundContext = .ok ctx →
       env.recordInboundSession = RecordOutcome.thrown e →
       (runPipeline env).2 = .error e) ∧
     (∀ r sp fb ctx, env.resolveAgentRoute = .ok r →
       env.resolveStorePath = .ok sp →
       env.resolveEnvelopeFormatOptions = .ok () →
       env.formatInboundEnvelope = .ok fb →
       env.finalizeInboundContext = .ok ctx →
       (∀ e', env.recordInboundSession ≠ RecordOutcome.thrown e') →
       env.dispatchReply = .error e →
       (runPipeline env).2 = .error e)) := by
  refine ⟨⟨?_, ?_⟩, ?_, ?_, ?_, ?_, ?_, ?_, ?_, ?_, ?_⟩
  · unfold handleRequest
    split
    · rfl
    · split
      · rfl
      · split
        · rfl
        · split
          · rfl
          · cases hpr : (runPipeline env).2 <;> simp [hpr] <;> rfl
  · unfold handleRequest
    split
    · intro _h
      exact ⟨"Buyer not allowed", rfl⟩
    · split
      · intro _h
        exact ⟨"Max concurrency reached", rfl⟩
      · split
        · intro _h
          exact ⟨_, rfl⟩
        · split
          · intro _h
            exact ⟨"No user message found in request", rfl⟩
          · cases hpr : (runPipeline env).2 with
            | error e2 =>
                simp only [hpr]
                intro _h
                exact ⟨e2, rfl⟩
            | ok t =>
                simp only [hpr]
                intro h
                exact absurd rfl h
  · intro hauth hcap hbody
    unfold handleRequest
    rw [if_neg hauth, if_neg hcap]
    simp only [hbody]
  · intro model messages u hauth hcap hbody huser hpipe
    unfold handleRequest
    rw [if_neg hauth, if_neg hcap]
    simp only [hbody, huser, hpipe]
  · intro h
    simp [runPipeline, h]
  · intro r h1 h2
    simp [runPipeline, h1, h2]
  · intro r sp h1 h2 h3
    simp [runPipeline, h1, h2, h3]
  · intro r sp h1 h2 h3 h4
    simp [runPipeline, h1, h2, h3, h4]
  · intro r sp fb h1 h2 h3 h4 h5
    simp [runPipeline, h1, h2, h3, h4, h5]
  · intro r sp fb ctx h1 h2 h3 h4 h5 h6
    simp [runPipeline, h1, h2, h3, h4, h5, h6]
  · intro r sp fb ctx h1 h2 h3 h4 h5 h6 h7
    cases hrec : env.recordInboundSession with
    | thrown e' => exact absurd hrec (h6 e')
    | ok => simp [runPipeline, h1, h2, h3, h4, h5, hrec, h7]
    | recordError e' => simp [runPipeline, h1, h2, h3, h4, h5, hrec, h7]

/-- Witness for C6: Scenario F — the pipeline dispatch throws `"boom"`; the
response is a 500 whose message is exactly `"boom"`. -/
theorem c6_exceptions_mapped_to_500_witness :
    (handleRequest ⟨[], 4, true⟩ 0
        ⟨"r4", none, .ok none (some [⟨"user", "hi"⟩])⟩
        ⟨.ok ⟨"main", "k", "k"⟩, .ok "/tmp/store", .ok (), .ok "hi",
         .ok ⟨"k"⟩, .ok, .error "boom", true⟩ 7).response =
      buildErrorResponse "r4" 500 "boom" := by
  have h := (c6_exceptions_mapped_to_500 ⟨[], 4, true⟩ 0
    ⟨"r4", none, .ok none (some [⟨"user", "hi"⟩])⟩
    ⟨.ok ⟨"main", "k", "k"⟩, .ok "/tmp/store", .ok (), .ok "hi",
     .ok ⟨"k"⟩, .ok, .error "boom", true⟩ 7 "boom").2.2.1
    none (some [⟨"user", "hi"⟩]) "hi" (by decide) (by decide) rfl
    (by decide) rfl
  exact h

/-- C7: a failure of the session-recording collaborator, reported through
its `onRecordError` channel, changes nothing observable about the request:
the full outcome (response, events, admission) equals the outcome with a
successful recording. -/
theorem c7_record_failure_is_tolerated (cfg : ProviderCfg) (active : Nat)
    (req : Request) (now : Nat) (env : Env) (e : String) :
    handleRequest cfg active req
        { env with recordInboundSession := .recordError e } now =
      handleRequest cfg active req
        { env with recordInboundSession := .ok } now := by
  unfold handleRequest
  rw [runPipeline_record env e]

/-- C9: on every termination path — 403 allowlist rejection, 429 capacity
rejection, 400 validation error, 500 parse or pipeline error, 200 success —
exactly one audit-log append is attempted when request logging is enabled
and none when it is not; and whether the append itself succeeds or fails
never changes the response. -/
theorem c9_audit_log_every_path (cfg : ProviderCfg) (active : Nat)
    (req : Request) (env : Env) (now : Nat) (b b' : Bool) :
    countLogAppends (handleRequest cfg active req env now).events =
      (if cfg.requestLogEnabled then 1 else 0) ∧
    (handleRequest cfg active req { env with appendOk := b } now).response =
      (handleRequest cfg active req { env with appendOk := b' } now).response := by
  constructor
  · unfold handleRequest
    split
    · exact countLogAppends_writeLog cfg req env.appendOk _
    · split
      · exact countLogAppends_writeLog cfg req env.appendOk _
      · split
        · simp only [countLogAppends_cons_parse, countLogAppends_writeLog]
        · split
          · simp only [countLogAppends_cons_parse, countLogAppends_writeLog]
          · cases hpr : (runPipeline env).2 <;>
              simp [hpr, countLogAppends_cons_parse, countLogAppends_append,
                countLogAppends_runPipeline, countLogAppends_writeLog]
  · unfold handleRequest
    rw [runPipeline_appendOk env b, runPipeline_appendOk env b']
    split
    · rfl
    · split
      · rfl
      · split
        · rfl
        · split
          · rfl
          · cases hpr : (runPipeline env).2 <;> simp [hpr]

/-- C8: a request that passes authorization, admission and validation and
whose pipeline dispatch completes gets status 200 with content-type
`application/json` and a body of exactly the shape
`{id: "chatcmpl-" + requestId, object: "chat.completion", created: <unix
seconds at build time>, choices: [{index: 0, message: {role: "assistant",
content: <the delivered fragments' contributions joined with "\n" in
delivery order>}, finish_reason: "stop"}]}`; with zero delivered fragments
the content is the empty string and the status is still 200. -/
theorem c8_success_shape (cfg : ProviderCfg) (active : Nat) (req : Request)
    (env : Env) (now : Nat) (model : Option String)
    (messages : Option (List Msg)) (u : String) (route : Route)
    (storePath : String) (fb : String) (ctx : Ctx) (frags : List Fragment)
    (hauth : ¬(0 < cfg.allowedBuyers.length ∧
      buyerRejected cfg.allowedBuyers req.buyerPeerId = true))
    (hcap : ¬ cfg.maxConcurrency ≤ active)
    (hbody : req.parsedBody = BodyParse.ok model messages)
    (huser : extractLastUserMessage (messages.getD []) = some u)
    (hroute : env.resolveAgentRoute = .ok route)
    (hstore : env.resolveStorePath = .ok storePath)
    (heo : env.resolveEnvelopeFormatOptions = .ok ())
    (hfmt : env.formatInboundEnvelope = .ok fb)
    (hctx : env.finalizeInboundContext = .ok ctx)
    (hrec : ∀ e, env.recordInboundSession ≠ RecordOutcome.thrown e)
    (hdisp : env.dispatchReply = .ok frags) :
    (handleRequest cfg active req env now).response =
      { requestId := req.requestId
        statusCode := 200
        contentType := "application/json"
        body := RespBody.success
          { id := "chatcmpl-" ++ req.requestId
            object := "chat.completion"
            created := now
            choices := [{ index := 0, role := "assistant",
                          content := joinChunks frags,
                          finishReason := "stop" }] } } ∧
    (frags = [] →
      (handleRequest cfg active req env now).response =
        buildSuccessResponse req.requestId "" now) := by
  have hpr : (runPipeline env).2 = Except.ok (joinChunks frags) := by
    cases hrecc : env.recordInboundSession with
    | thrown e => exact absurd hrecc (hrec e)
    | ok =>
        simp [runPipeline, hroute, hstore, heo, hfmt, hctx, hrecc, hdisp]
    | recordError e2 =>
        simp [runPipeline, hroute, hstore, heo, hfmt, hctx, hrecc, hdisp]
  have hmain : (handleRequest cfg active req env now).response =
      buildSuccessResponse req.requestId (joinChunks frags) now := by
    unfold handleRequest
    rw [if_neg hauth, if_neg hcap]
    simp only [hbody, huser, hpr]
  constructor
  · rw [hmain]
    rfl
  · intro hnil
    subst hnil
    rw [hmain, show joinChunks ([] : List Fragment) = "" from by decide]

/-- Witness for C8: Scenario A — the pipeline yields one fragment
`{text: "Hello!"}`; the response is the 200 success envelope with content
`"Hello!"`. -/
theorem c8_success_shape_witness :
    (handleRequest ⟨[], 4, false⟩ 0
        ⟨"r5", none, .ok none (some [⟨"user", "hi"⟩])⟩
        ⟨.ok ⟨"main", "k", "k"⟩, .ok "/tmp/store", .ok (), .ok "hi",
         .ok ⟨"k"⟩, .ok, .ok [⟨none, some "Hello!"⟩], true⟩ 7).response =
      buildSuccessResponse "r5" "Hello!" 7 := by
  have h := (c8_success_shape ⟨[], 4, false⟩ 0
    ⟨"r5", none, .ok none (some [⟨"user", "hi"⟩])⟩
    ⟨.ok ⟨"main", "k", "k"⟩, .ok "/tmp/store", .ok (), .ok "hi",
     .ok ⟨"k"⟩, .ok, .ok [⟨none, some "Hello!"⟩], true⟩ 7 none
    (some [⟨"user", "hi"⟩]) "hi" ⟨"main", "k", "k"⟩ "/tmp/store" "hi"
    ⟨"k"⟩ [⟨none, some "Hello!"⟩] (by decide) (by decide) rfl (by decide)
    rfl rfl rfl rfl rfl (fun e hc => by cases hc) rfl).1
  rw [h]
  decide

/-- C10: a delivered fragment's appended text is `payload.markdown` when
that field is a non-empty string, and only otherwise `payload.text` (still
subject to the truthiness push guard); a fragment with both fields absent
or empty contributes no chunk at all — it adds no empty line, so the joined
content depends only on the contributing fragments, in delivery order. -/
theorem c10_fragment_text_selection (f : Fragment) (m : String)
    (frags1 frags2 : List Fragment) :
    (f.markdown = some m → m ≠ "" → fragContribution f = some m) ∧
    ((f.markdown = none ∨ f.markdown = some "") →
      fragContribution f =
        f.text.bind (fun t => if t == "" then none else some t)) ∧
    ((f.markdown = none ∨ f.markdown = some "") →
      (f.text = none ∨ f.text = some "") → fragContribution f = none) ∧
    (fragContribution f = none →
      joinChunks (frags1 ++ f :: frags2) = joinChunks (frags1 ++ frags2)) := by
  refine ⟨?_, ?_, ?_, ?_⟩
  · intro hm hne
    have hbe : (m == "") = false := beq_eq_false_iff_ne.mpr hne
    simp [fragContribution, hm, hbe]
  · rintro (h | h) <;> cases ht : f.text <;>
      simp [fragContribution, h, ht, Option.bind]
  · rintro (h | h) (h2 | h2) <;> simp [fragContribution, h, h2]
  · intro h
    simp [joinChunks, List.filterMap_append, h]

/-- Witness for C10: a fragment with empty markdown and empty text is
skipped entirely from the joined content. -/
theorem c10_fragment_text_selection_witness :
    fragContribution ⟨some "", some ""⟩ = none ∧
    joinChunks ([⟨none, some "A"⟩] ++ ⟨some "", some ""⟩ ::
        [⟨some "B", none⟩]) =
      joinChunks ([⟨none, some "A"⟩] ++ [⟨some "B", none⟩]) := by
  have h := c10_fragment_text_selection ⟨some "", some ""⟩ "x"
    [⟨none, some "A"⟩] [⟨some "B", none⟩]
  have h3 := h.2.2.1 (Or.inr rfl) (Or.inr rfl)
  exact ⟨h3, h.2.2.2 h3⟩
